import Mathlib

/-!
Shallow embedding of the Mindkeeper typed persistent store and the level-3
completion check from `src/scripts/Commandeer/mindKeeper.ts`.

The host world (the Persistence Adapter of dynamic properties, chat
messaging, and the deferred `system.run` write queue) is modelled by an
explicit `WorldState`:
  * `props` is the committed key/value content of the adapter (an
    association list; `setDynamicProperty` overwrites in place),
  * `throwOnMissing` is the set of names for which a read of an *unset*
    key throws instead of returning undefined (the spec allows the
    adapter to "throw or return undefined for unset keys"),
  * `messages` is the ordered log of `world.sendMessage` broadcasts,
  * `pending` is the queue of writes deferred through `system.run`; a
    `flush` applies them in order at the next scheduler-safe slot.

JavaScript primitive values are embedded as `Value`; `typeof` becomes
`Value.typeofStr`.  Numbers are embedded as `Int` (every numeric literal
the program manipulates is an integer: zero values, `+ 1`).
-/

inductive StoreType where
  | string
  | number
  | boolean
deriving DecidableEq, Repr

/-- The string `StoreType` enum values from the source, which coincide with
the JavaScript `typeof` names the code compares them to. -/
def StoreType.typeName : StoreType → String
  | .string => "string"
  | .number => "number"
  | .boolean => "boolean"

/-- Embedded JavaScript primitive values (`string | number | boolean | Vector3`),
the value type of `Mindkeeper.set`. -/
inductive Value where
  | str (s : String)
  | num (n : Int)
  | bool (b : Bool)
  | vec (x y z : Int)
deriving DecidableEq, Repr

/-- JavaScript `typeof` on an embedded value (a `Vector3` is an object). -/
def Value.typeofStr : Value → String
  | .str _ => "string"
  | .num _ => "number"
  | .bool _ => "boolean"
  | .vec _ _ _ => "object"

/-- `class Store`: a declared type together with a name
(constructor argument order of the source). -/
structure Store where
  type : StoreType
  name : String
deriving DecidableEq, Repr

def Store.getType (s : Store) : StoreType := s.type

def Store.getName (s : Store) : String := s.name

/-- First-match lookup in an association list of dynamic properties. -/
def lookupProp : List (String × Value) → String → Option Value
  | [], _ => none
  | p :: rest, name => if p.1 = name then some p.2 else lookupProp rest name

/-- Overwrite-or-append write to the dynamic-property association list
(`setDynamicProperty` semantics: the key keeps one binding). -/
def setProp : List (String × Value) → String → Value → List (String × Value)
  | [], name, v => [(name, v)]
  | p :: rest, name, v => if p.1 = name then (name, v) :: rest else p :: setProp rest name v

/-- The host world: Persistence Adapter content, adapter failure behaviour,
broadcast message log, and the queue of writes deferred through `system.run`. -/
structure WorldState where
  props : List (String × Value)
  throwOnMissing : List String
  messages : List String
  pending : List (String × Value)
deriving DecidableEq, Repr

/-- `world.getDynamicProperty`: a defined key yields its value; an unset key
either returns undefined or, for names in `throwOnMissing`, throws. -/
def WorldState.getDyn (w : WorldState) (name : String) : Except Unit (Option Value) :=
  match lookupProp w.props name with
  | some v => .ok (some v)
  | none => if w.throwOnMissing.contains name then .error () else .ok none

/-- `world.setDynamicProperty`, performed synchronously. -/
def WorldState.setDyn (w : WorldState) (name : String) (v : Value) : WorldState :=
  { w with props := setProp w.props name v }

/-- `world.sendMessage`: appends one broadcast line. -/
def WorldState.send (w : WorldState) (m : String) : WorldState :=
  { w with messages := w.messages ++ [m] }

/-- `world.sendMessage` for each string of a list, in order
(the `forEach` send loops of the source). -/
def sendEach : WorldState → List String → WorldState
  | w, [] => w
  | w, m :: rest => sendEach (w.send m) rest

/-- `system.run(() => world.setDynamicProperty(name, v))`: the write is
queued, not applied to `props`. -/
def WorldState.queueWrite (w : WorldState) (name : String) (v : Value) : WorldState :=
  { w with pending := w.pending ++ [(name, v)] }

/-- Apply a list of deferred writes, oldest first. -/
def applyWrites : List (String × Value) → List (String × Value) → List (String × Value)
  | [], props => props
  | p :: rest, props => applyWrites rest (setProp props p.1 p.2)

/-- The next scheduler-safe slot: all `system.run` callbacks execute in
queue order. -/
def WorldState.flush (w : WorldState) : WorldState :=
  { w with props := applyWrites w.pending w.props, pending := [] }

/-- `world.clearDynamicProperties()`: erases every persisted key. -/
def WorldState.clearDynamicProperties (w : WorldState) : WorldState :=
  { w with props := [] }

/-- The mutable fields of `class Mindkeeper` (the `world` field is passed
explicitly to each operation). -/
structure Mindkeeper where
  registerdStores : List Store
  initialised : Bool
  debugLog : List String
  secondWarning : Bool
deriving DecidableEq, Repr

/-- `registerStore(store, type)`: unconditionally pushes a new descriptor. -/
def Mindkeeper.registerStore (mk : Mindkeeper) (store : String) (type : StoreType) : Mindkeeper :=
  { mk with registerdStores := mk.registerdStores ++ [Store.mk type store] }

/-- `getStores()`: the full descriptor list in registration order. -/
def Mindkeeper.getStores (mk : Mindkeeper) : List Store :=
  mk.registerdStores

/-- `Array.prototype.find` on the descriptor list: first descriptor with the
given name, if any. -/
def findStore : List Store → String → Option Store
  | [], _ => none
  | s :: rest, name => if s.name = name then some s else findStore rest name

/-- `this.registerdStores.find((s) => s.getName() === store)?.getType()`. -/
def Mindkeeper.firstStoreType (mk : Mindkeeper) (store : String) : Option StoreType :=
  (findStore mk.registerdStores store).map Store.type

/-- The zero value written by the `switch` of `registerToWorld`
(`""` / `0` / `false`). -/
def zeroValue : StoreType → Value
  | .string => .str ""
  | .number => .num 0
  | .boolean => .bool false

/-- One iteration of the `registerToWorld` loop: probe the property inside
try/catch (`undefined` or a throw mean "not yet defined"), skip defined
slots, otherwise write the zero value of the declared type and push the
debug-log line of the corresponding `switch` case. -/
def registerOne (w : WorldState) (log : List String) (s : Store) : WorldState × List String :=
  let isAlreadyDefined :=
    match w.getDyn s.name with
    | .ok (some _) => true
    | _ => false
  if isAlreadyDefined then (w, log)
  else (w.setDyn s.name (zeroValue s.type), log ++ ["registerd " ++ s.type.typeName ++ s.name])

/-- The `for` loop of `registerToWorld` over the descriptor list. -/
def registerLoop : List Store → WorldState → List String → WorldState × List String
  | [], w, log => (w, log)
  | s :: rest, w, log =>
      let step := registerOne w log s
      registerLoop rest step.1 step.2

/-- `registerToWorld()`: run the registration loop, then set
`initialised = true`. -/
def Mindkeeper.registerToWorld (mk : Mindkeeper) (w : WorldState) : Mindkeeper × WorldState :=
  let r := registerLoop mk.registerdStores w mk.debugLog
  ({ mk with debugLog := r.2, initialised := true }, r.1)

/-- `set(store, value)`: if the first registered descriptor of that name is
absent, or its declared type differs from `typeof value`, broadcast the
type-mismatch message and perform no write; otherwise queue the deferred
`system.run` write. -/
def Mindkeeper.set (mk : Mindkeeper) (w : WorldState) (store : String) (value : Value) : WorldState :=
  if (mk.firstStoreType store).map StoreType.typeName ≠ some value.typeofStr then
    w.send ("Store " ++ store ++ " is not of type " ++ value.typeofStr)
  else
    w.queueWrite store value

/-- `get(store)`: read through the adapter; an undefined result broadcasts
the "not defined" message and yields no value; a thrown read is caught and
yields no value silently (the message in the catch branch is commented out
in the source); a defined value is returned as-is.  The registry is not
consulted. -/
def Mindkeeper.get (mk : Mindkeeper) (w : WorldState) (store : String) :
    WorldState × Option Value :=
  match w.getDyn store with
  | .ok (some v) => (w, some v)
  | .ok none => (w.send ("Store " ++ store ++ " is not defined"), none)
  | .error _ => (w, none)

/-- `increment(store)`: read the value; if it is a number, `set` the
successor, otherwise do nothing further. -/
def Mindkeeper.increment (mk : Mindkeeper) (w : WorldState) (store : String) : WorldState :=
  let r := mk.get w store
  match r.2 with
  | some (.num n) => mk.set r.1 store (.num (n + 1))
  | _ => r.1

/-- The apostrophe character, used in one broadcast message of the source. -/
def apos : String := String.singleton (Char.ofNat 39)

/-- Decimal digit value of a character, if any. -/
def digitVal (c : Char) : Option Nat :=
  if 48 ≤ c.toNat ∧ c.toNat ≤ 57 then some (c.toNat - 48) else none

/-- Accumulate a decimal digit string into a natural number. -/
def digitsToNat : List Char → Nat → Option Nat
  | [], acc => some acc
  | c :: rest, acc =>
      match digitVal c with
      | some d => digitsToNat rest (acc * 10 + d)
      | none => none

/-- Modelled from the spec: the host JavaScript `Number(text)` conversion
used by the `!set` command ("number→parse or report unparsable") is a
library routine outside the repository; it is modelled on optionally
negated decimal integer literals, with `none` standing for `NaN`. -/
def jsNumber (s : String) : Option Int :=
  match s.data with
  | [] => none
  | c :: rest =>
      if c = '-' then (digitsToNat rest 0).map (fun n => -(n : Int))
      else (digitsToNat (c :: rest) 0).map (fun n => (n : Int))

/-- The host JavaScript `toLowerCase()` on the ASCII command tokens. -/
def jsToLower (s : String) : String := String.mk (s.data.map Char.toLower)

/-- `message.startsWith(p)`: for a space-free pattern this is equivalent to
testing the first whitespace token, which is what the model receives. -/
def strStartsWith (s p : String) : Bool := p.data.isPrefixOf s.data

/-- Template-literal rendering of a possibly undefined value, as in
the broadcast `Value of X is Y`. -/
def showValue : Option Value → String
  | none => "undefined"
  | some (.str s) => s
  | some (.num n) => toString n
  | some (.bool true) => "true"
  | some (.bool false) => "false"
  | some (.vec _ _ _) => "[object Object]"

/-- The `!set` branch of `chatCommands`.  Token 1 is the store, token 2 the
literal value; token 3 (the type hint) is read into a variable the source
never uses.  The registered declared type alone selects the coercion; the
trailing `Value of X is Y` broadcast of the source runs after the `switch`
on every path that did not return early, which is exactly the three `set`
calls. -/
def handleSet (mk : Mindkeeper) (w : WorldState) (parts : List String) : WorldState :=
  match parts.get? 1 with
  | none => w.send "Please provide a store to set"
  | some store =>
    match parts.get? 2 with
    | none => w.send ("Please provide a value to set for " ++ store)
    | some value =>
      match mk.firstStoreType store with
      | none => w.send ("Store " ++ store ++ " is not defined")
      | some .string =>
          (mk.set w store (.str value)).send ("Value of " ++ store ++ " is " ++ value)
      | some .number =>
          match jsNumber value with
          | none => w.send ("Can" ++ apos ++ "t parse " ++ value ++ " as a number")
          | some n =>
              (mk.set w store (.num n)).send ("Value of " ++ store ++ " is " ++ value)
      | some .boolean =>
          (mk.set w store (.bool (jsToLower value == "true"))).send
            ("Value of " ++ store ++ " is " ++ value)

/-- `chatCommands(event)` on the whitespace-split tokens of the message.
The source is a sequence of independent `if` statements on the first
token; the early `return`s inside the `!set` branch only skip later
branches whose guards are false whenever the command token is `!set`, so
sequential composition is faithful.  A missing `!get` argument is the
JavaScript undefined token, which stringifies to "undefined" in both the
adapter access and the broadcast.  The `!listStores` guard of the source
tests `message.startsWith`, equivalent on the first token for a space-free
pattern. -/
def Mindkeeper.chatCommandsParts (mk : Mindkeeper) (w : WorldState) (parts : List String) :
    Mindkeeper × WorldState :=
  let command := parts.headD ""
  let w :=
    if command = "!get" then
      let store := parts.getD 1 "undefined"
      let r := mk.get w store
      r.1.send ("Value of " ++ store ++ " is " ++ showValue r.2)
    else w
  let w := if command = "!set" then handleSet mk w parts else w
  let w :=
    if strStartsWith command "!listStores" then
      sendEach w (mk.registerdStores.map (fun s => s.name ++ " is " ++ s.type.typeName))
    else w
  let mw :=
    if command = "!deleteStores" then
      ({ mk with secondWarning := true },
       (w.send "ARE YOU SURE YOU WANT TO DELETE ALL STORES? THIS COULD CAUSE ISSUES").send
         "If you are sure, type !deleteStoresConfirm")
    else (mk, w)
  let mk := mw.1
  let w := mw.2
  if mk.secondWarning ∧ command = "!deleteStoresConfirm" then
    ({ mk with secondWarning := false },
     (sendEach w (mk.registerdStores.map (fun s => "Deleting " ++ s.name))).clearDynamicProperties)
  else (mk, w)

/-- `chatCommands(event)`: dispatch on the message split at single spaces
(`String.prototype.split(" ")` keeps empty tokens, as does `splitOn`). -/
def Mindkeeper.chatCommands (mk : Mindkeeper) (w : WorldState) (message : String) :
    Mindkeeper × WorldState :=
  mk.chatCommandsParts w (message.splitOn " ")

/-- Integer coordinates of the level geometry. -/
structure Vec3 where
  x : Int
  y : Int
  z : Int
deriving DecidableEq, Repr

/-- Modelled from the spec: `vector3` from the out-of-scope geometry
utilities (`Commandeer/utils/vectorUtils`), the `Vector3` literal
constructor. -/
def vector3 (x y z : Int) : Vec3 := Vec3.mk x y z

/-- Modelled from the spec: `Vector3Add` from the out-of-scope geometry
utilities (`Commandeer/utils/vectorUtils`), componentwise vector addition. -/
def Vector3Add (a b : Vec3) : Vec3 := Vec3.mk (a.x + b.x) (a.y + b.y) (a.z + b.z)

def waterBlockId : String := "minecraft:water"

def redstoneBlockId : String := "minecraft:redstone_block"

def level3StartPosition : Vec3 := vector3 56 69 235

def Level3EndPosition : Vec3 := vector3 72 70 235

def level3ResetCommandBlockPos : Vec3 := vector3 54 68 242

/-- One `{position, block}` pair of the declarative level-condition list. -/
structure Condition where
  position : Vec3
  block : String
deriving DecidableEq, Repr

/-- The visible outcome of one `checkCompletion` call: the tri-state return
value, the `teleportAgent` target if any, the timed title and subtitle if
shown, and the block fill if performed. -/
structure CheckEffects where
  result : Option Bool
  teleportedTo : Option Vec3
  title : Option String
  subtitle : Option String
  filledBlock : Option (Vec3 × String)
deriving DecidableEq, Repr

/-- The out-of-bounds probe of the level-3 check: the block one step below
the agent is water (`?.type.id` of an absent block compares unequal). -/
def level3IsOutOfBounds (blockAt : Vec3 → Option String) (agentLocation : Vec3) : Bool :=
  blockAt (Vector3Add agentLocation (vector3 0 (-1) 0)) == some waterBlockId

/-- The condition sweep of the level-3 check: the `forEach` clears the
completion flag on any position whose block differs from the expected one.
The source queries dimension "Overworld" here and "overworld" for the
water probe; the model reads both through the same block query. -/
def level3IsComplete (conditions : List Condition) (blockAt : Vec3 → Option String) : Bool :=
  conditions.all (fun c => blockAt c.position == some c.block)

/-- `level3`'s `checkCompletion` callback, parameterised by the external
collaborators: the declarative condition list, the world block query, the
agent location, and the opaque `isAgentAt` position test from the agent
utilities. -/
def level3CheckCompletion (conditions : List Condition) (blockAt : Vec3 → Option String)
    (agentLocation : Vec3) (isAgentAt : Vec3 → Bool) : CheckEffects :=
  let isOutOfBounds := level3IsOutOfBounds blockAt agentLocation
  let isComplete := level3IsComplete conditions blockAt
  if isComplete && !isOutOfBounds then
    { result := some true, teleportedTo := none, title := none, subtitle := none,
      filledBlock := none }
  else if isOutOfBounds then
    { result := some false, teleportedTo := some level3StartPosition,
      title := some "%message.level.outofbounds",
      subtitle := some "%message.level.outofbounds.subtext", filledBlock := none }
  else if isAgentAt Level3EndPosition then
    { result := none, teleportedTo := some level3StartPosition,
      title := some "%message.level.incorrect",
      subtitle := some "%message.level.incorrect.subtext",
      filledBlock := some (level3ResetCommandBlockPos, redstoneBlockId) }
  else
    { result := none, teleportedTo := none, title := none, subtitle := none,
      filledBlock := none }

/-! ## Helper lemmas -/

theorem lookupProp_setProp (props : List (String × Value)) (n m : String) (v : Value) :
    lookupProp (setProp props n v) m = if n = m then some v else lookupProp props m := by
  induction props with
  | nil => simp [setProp, lookupProp]
  | cons p rest ih =>
      by_cases h1 : p.1 = n
      · simp only [setProp, h1, if_pos rfl, lookupProp]
        by_cases h2 : n = m
        · simp [h2]
        · simp [h2, lookupProp, h1]
      · simp only [setProp, if_neg h1, lookupProp]
        by_cases h2 : p.1 = m
        · have h3 : ¬ n = m := by
            intro hnm
            exact h1 (by rw [h2, hnm])
          simp [h2, h3]
        · simp [h2, ih]

theorem sendEach_eq (ms : List String) (w : WorldState) :
    sendEach w ms = { w with messages := w.messages ++ ms } := by
  induction ms generalizing w with
  | nil => simp [sendEach]
  | cons m rest ih => simp [sendEach, ih, WorldState.send]

theorem applyWrites_last (l : List (String × Value)) (props : List (String × Value))
    (n : String) (v : Value) :
    lookupProp (applyWrites (l ++ [(n, v)]) props) n = some v := by
  induction l generalizing props with
  | nil => simp [applyWrites, lookupProp_setProp]
  | cons p rest ih => simpa [applyWrites] using ih (setProp props p.1 p.2)

theorem registerOne_fields (w : WorldState) (log : List String) (s : Store) :
    (registerOne w log s).1.throwOnMissing = w.throwOnMissing ∧
    (registerOne w log s).1.messages = w.messages ∧
    (registerOne w log s).1.pending = w.pending := by
  unfold registerOne
  by_cases h : (match w.getDyn s.name with | .ok (some _) => true | _ => false) = true
  · simp [h]
  · simp [h, WorldState.setDyn]

theorem registerOne_preserves (w : WorldState) (log : List String) (s : Store)
    (name : String) (v : Value) (h : lookupProp w.props name = some v) :
    lookupProp (registerOne w log s).1.props name = some v := by
  unfold registerOne
  by_cases hd : (match w.getDyn s.name with | .ok (some _) => true | _ => false) = true
  · simp [hd, h]
  · by_cases hn : s.name = name
    · exfalso
      apply hd
      simp [WorldState.getDyn, hn, h]
    · simp [hd, WorldState.setDyn, lookupProp_setProp, hn, h]

theorem registerLoop_preserves (stores : List Store) (w : WorldState) (log : List String)
    (name : String) (v : Value) (h : lookupProp w.props name = some v) :
    lookupProp (registerLoop stores w log).1.props name = some v := by
  induction stores generalizing w log with
  | nil => simpa [registerLoop] using h
  | cons s rest ih =>
      simp only [registerLoop]
      exact ih (registerOne w log s).1 (registerOne w log s).2
        (registerOne_preserves w log s name v h)

theorem registerLoop_writes_zero (stores : List Store) (w : WorldState) (log : List String)
    (st : Store) (hfirst : findStore stores st.name = some st)
    (hnone : lookupProp w.props st.name = none) :
    lookupProp (registerLoop stores w log).1.props st.name = some (zeroValue st.type) := by
  induction stores generalizing w log with
  | nil => simp [findStore] at hfirst
  | cons s rest ih =>
      simp only [registerLoop]
      by_cases hn : s.name = st.name
      · have hs : s = st := by
          simpa [findStore, hn] using hfirst
        subst hs
        have hnotdef : (match w.getDyn s.name with | .ok (some _) => true | _ => false) = false := by
          unfold WorldState.getDyn
          rw [hnone]
          by_cases ht : s.name ∈ w.throwOnMissing <;> simp [ht]
        have hstep : (registerOne w log s).1 = w.setDyn s.name (zeroValue s.type) := by
          unfold registerOne
          simp [hnotdef]
        rw [hstep]
        apply registerLoop_preserves
        simp [WorldState.setDyn, lookupProp_setProp]
      · have hrest : findStore rest st.name = some st := by
          simpa [findStore, hn] using hfirst
        apply ih _ _ hrest
        unfold registerOne
        by_cases hd : (match w.getDyn s.name with | .ok (some _) => true | _ => false) = true
        · simpa [hd]
        · simp [hd, WorldState.setDyn, lookupProp_setProp, hn, hnone]

theorem registerLoop_all_defined (stores : List Store) (w : WorldState) (log : List String) :
    ∀ s ∈ stores, ∃ v, lookupProp (registerLoop stores w log).1.props s.name = some v := by
  induction stores generalizing w log with
  | nil => simp
  | cons s rest ih =>
      intro t ht
      rcases List.mem_cons.mp ht with h | h
      · subst h
        simp only [registerLoop]
        have : ∃ v, lookupProp (registerOne w log t).1.props t.name = some v := by
          unfold registerOne
          by_cases hd : (match w.getDyn t.name with | .ok (some _) => true | _ => false) = true
          · simp only [hd, if_pos]
            rcases hv : lookupProp w.props t.name with _ | v
            · exfalso
              unfold WorldState.getDyn at hd
              rw [hv] at hd
              by_cases ht2 : t.name ∈ w.throwOnMissing <;> simp [ht2] at hd
            · exact ⟨v, by simpa [hd] using hv⟩
          · refine ⟨zeroValue t.type, ?_⟩
            simp [hd, WorldState.setDyn, lookupProp_setProp]
        rcases this with ⟨v, hv⟩
        exact ⟨v, registerLoop_preserves rest _ _ t.name v hv⟩
      · simp only [registerLoop]
        exact ih (registerOne w log s).1 (registerOne w log s).2 t h

theorem registerLoop_id (stores : List Store) (w : WorldState) (log : List String)
    (h : ∀ s ∈ stores, ∃ v, lookupProp w.props s.name = some v) :
    registerLoop stores w log = (w, log) := by
  induction stores generalizing w log with
  | nil => simp [registerLoop]
  | cons s rest ih =>
      rcases h s (List.mem_cons_self s rest) with ⟨v, hv⟩
      have hstep : registerOne w log s = (w, log) := by
        unfold registerOne
        have : (match w.getDyn s.name with | .ok (some _) => true | _ => false) = true := by
          unfold WorldState.getDyn
          rw [hv]
        simp [this]
      simp only [registerLoop, hstep]
      exact ih w log (fun t ht => h t (List.mem_cons_of_mem s ht))

/-! ## Concrete states used by the witnesses and counterexamples -/

/-- A registry holding one store, `"level"` of type number. -/
def mkLevelNum : Mindkeeper :=
  { registerdStores := [Store.mk .number "level"], initialised := false,
    debugLog := [], secondWarning := false }

/-- An empty registry. -/
def mkEmpty : Mindkeeper :=
  { registerdStores := [], initialised := false, debugLog := [], secondWarning := false }

/-- A registry holding one store, `"s"` of type string. -/
def mkStrS : Mindkeeper :=
  { registerdStores := [Store.mk .string "s"], initialised := false,
    debugLog := [], secondWarning := false }

/-- A world with no persisted keys, no failing names, no messages, no
pending writes. -/
def wEmpty : WorldState :=
  { props := [], throwOnMissing := [], messages := [], pending := [] }

/-- A world where `"level"` persists the number 7. -/
def wLevel7 : WorldState :=
  { props := [("level", Value.num 7)], throwOnMissing := [], messages := [], pending := [] }

/-- A world where `"level"` persists the number 5. -/
def wLevel5 : WorldState :=
  { props := [("level", Value.num 5)], throwOnMissing := [], messages := [], pending := [] }

/-- A world where `"level"` persists the empty string. -/
def wLevelEmptyStr : WorldState :=
  { props := [("level", Value.str "")], throwOnMissing := [], messages := [], pending := [] }

/-- A world where an adapter read of the unset key `"x"` throws. -/
def wThrow : WorldState :=
  { props := [], throwOnMissing := ["x"], messages := [], pending := [] }

/-- A world where the unregistered key `"ghost"` persists a string. -/
def wGhost : WorldState :=
  { props := [("ghost", Value.str "hello")], throwOnMissing := [], messages := [], pending := [] }

/-- A world where `"s"` persists the number 5. -/
def wS5 : WorldState :=
  { props := [("s", Value.num 5)], throwOnMissing := [], messages := [], pending := [] }

/-! ## Claims -/

/-- C1: for a store registered with declared type `T`, `set(name, v)` queues
the deferred adapter write exactly when `typeof v` equals `T`; if the name
is absent from the registry or the type does not match, the broadcast
type-mismatch message is emitted and no write is queued or performed, so
the persisted value is unchanged. -/
theorem set_type_safety (mk : Mindkeeper) (w : WorldState) (store : String) (value : Value) :
    (∀ T, mk.firstStoreType store = some T →
        (mk.set w store value = w.queueWrite store value ↔ T.typeName = value.typeofStr)) ∧
    ((∀ T, mk.firstStoreType store = some T → T.typeName ≠ value.typeofStr) →
        mk.set w store value =
            w.send ("Store " ++ store ++ " is not of type " ++ value.typeofStr) ∧
        (mk.set w store value).props = w.props ∧
        (mk.set w store value).pending = w.pending) := by
  constructor
  · intro T hT
    unfold Mindkeeper.set
    rw [hT]
    by_cases h : T.typeName = value.typeofStr
    · simp [h]
    · have hcond : (Option.map StoreType.typeName (some T)) ≠ some value.typeofStr := by
        simpa using h
      rw [if_pos hcond]
      constructor
      · intro heq
        exfalso
        have hp := congrArg (fun ws => ws.pending.length) heq
        simp [WorldState.send, WorldState.queueWrite] at hp
      · intro hc
        exact absurd hc h
  · intro hmis
    have hcond : (mk.firstStoreType store).map StoreType.typeName ≠ some value.typeofStr := by
      cases hft : mk.firstStoreType store with
      | none => simp
      | some T =>
          have := hmis T hft
          simpa using this
    unfold Mindkeeper.set
    rw [if_pos hcond]
    exact ⟨rfl, rfl, rfl⟩

/-- C1 witness: on the registry holding `"level"` as a number, setting a
number queues the write and setting a string is rejected. -/
theorem set_type_safety_witness :
    mkLevelNum.set wEmpty "level" (Value.num 3) = wEmpty.queueWrite "level" (Value.num 3) ∧
    mkLevelNum.set wEmpty "level" (Value.str "a") =
      wEmpty.send "Store level is not of type string" := by
  constructor
  · exact ((set_type_safety mkLevelNum wEmpty "level" (Value.num 3)).1
      StoreType.number (by decide)).mpr (by decide)
  · refine ((set_type_safety mkLevelNum wEmpty "level" (Value.str "a")).2 ?_).1
    intro T hT
    have hN : mkLevelNum.firstStoreType "level" = some StoreType.number := by decide
    rw [hN] at hT
    injection hT with h
    subst h
    decide

/-- C2: `registerToWorld` leaves every already-defined persisted value
unchanged, writes the declared type's zero value for every registered
descriptor whose adapter read throws or returns undefined (both reduce to
the key being unset), sets `initialised` to true, and running the pass a
second time changes nothing at all. -/
theorem registerToWorld_spec (mk : Mindkeeper) (w : WorldState) :
    (∀ name v, lookupProp w.props name = some v →
        lookupProp (mk.registerToWorld w).2.props name = some v) ∧
    (∀ st : Store, findStore mk.registerdStores st.name = some st →
        lookupProp w.props st.name = none →
        lookupProp (mk.registerToWorld w).2.props st.name = some (zeroValue st.type)) ∧
    (mk.registerToWorld w).1.initialised = true ∧
    (mk.registerToWorld w).1.registerToWorld (mk.registerToWorld w).2 =
      mk.registerToWorld w := by
  refine ⟨?_, ?_, ?_, ?_⟩
  · intro name v h
    exact registerLoop_preserves mk.registerdStores w mk.debugLog name v h
  · intro st hfirst hnone
    exact registerLoop_writes_zero mk.registerdStores w mk.debugLog st hfirst hnone
  · rfl
  · have hdef := registerLoop_all_defined mk.registerdStores w mk.debugLog
    unfold Mindkeeper.registerToWorld
    have hsecond :
        registerLoop mk.registerdStores (registerLoop mk.registerdStores w mk.debugLog).1
          (registerLoop mk.registerdStores w mk.debugLog).2 =
        ((registerLoop mk.registerdStores w mk.debugLog).1,
         (registerLoop mk.registerdStores w mk.debugLog).2) := by
      apply registerLoop_id
      exact hdef
    simp only [hsecond]

/-- C2 witness: an unset `"level"` store receives the number zero; an
already-persisted value 7 survives the pass. -/
theorem registerToWorld_spec_witness :
    lookupProp ((mkLevelNum.registerToWorld wEmpty).2).props "level" = some (Value.num 0) ∧
    lookupProp ((mkLevelNum.registerToWorld wLevel7).2).props "level" = some (Value.num 7) := by
  constructor
  · exact (registerToWorld_spec mkLevelNum wEmpty).2.1
      (Store.mk .number "level") (by decide) (by decide)
  · exact (registerToWorld_spec mkLevelNum wLevel7).1 "level" (Value.num 7) (by decide)

theorem chatConfirm_not_armed (mk : Mindkeeper) (w : WorldState)
    (h : mk.secondWarning = false) :
    mk.chatCommandsParts w ["!deleteStoresConfirm"] = (mk, w) := by
  simp +decide [Mindkeeper.chatCommandsParts, strStartsWith, h]

theorem chatConfirm_armed (mk : Mindkeeper) (w : WorldState)
    (h : mk.secondWarning = true) :
    mk.chatCommandsParts w ["!deleteStoresConfirm"] =
      ({ mk with secondWarning := false },
       { w with props := [],
                messages := w.messages ++
                  mk.registerdStores.map (fun s => "Deleting " ++ s.name) }) := by
  simp +decide [Mindkeeper.chatCommandsParts, strStartsWith, h, sendEach_eq,
    WorldState.clearDynamicProperties]

theorem chatDeleteStores_arms (mk : Mindkeeper) (w : WorldState) :
    mk.chatCommandsParts w ["!deleteStores"] =
      ({ mk with secondWarning := true },
       { w with messages := w.messages ++
           ["ARE YOU SURE YOU WANT TO DELETE ALL STORES? THIS COULD CAUSE ISSUES",
            "If you are sure, type !deleteStoresConfirm"] }) := by
  simp +decide [Mindkeeper.chatCommandsParts, strStartsWith, WorldState.send]

/-- C3: the destructive delete is gated by the confirmation flag:
`!deleteStoresConfirm` while the flag is down changes nothing;
`!deleteStores` emits the two warnings and arms the flag;
`!deleteStoresConfirm` while armed clears every persisted dynamic property
(the whole `props` map, not only registered stores) and disarms the flag,
so an immediately repeated `!deleteStoresConfirm` performs no further
action. -/
theorem deleteStores_confirm_gating (mk : Mindkeeper) (w : WorldState) :
    (mk.secondWarning = false →
        mk.chatCommandsParts w ["!deleteStoresConfirm"] = (mk, w)) ∧
    (mk.chatCommandsParts w ["!deleteStores"] =
        ({ mk with secondWarning := true },
         { w with messages := w.messages ++
             ["ARE YOU SURE YOU WANT TO DELETE ALL STORES? THIS COULD CAUSE ISSUES",
              "If you are sure, type !deleteStoresConfirm"] })) ∧
    (mk.secondWarning = true →
        mk.chatCommandsParts w ["!deleteStoresConfirm"] =
          ({ mk with secondWarning := false },
           { w with props := [],
                    messages := w.messages ++
                      mk.registerdStores.map (fun s => "Deleting " ++ s.name) }) ∧
        (mk.chatCommandsParts w ["!deleteStoresConfirm"]).1.chatCommandsParts
            (mk.chatCommandsParts w ["!deleteStoresConfirm"]).2 ["!deleteStoresConfirm"] =
          mk.chatCommandsParts w ["!deleteStoresConfirm"]) := by
  refine ⟨chatConfirm_not_armed mk w, chatDeleteStores_arms mk w, ?_⟩
  intro h
  refine ⟨chatConfirm_armed mk w h, ?_⟩
  rw [chatConfirm_armed mk w h]
  exact chatConfirm_not_armed _ _ rfl

/-- C3 witness: with one registered store and one stray persisted key, a
lone confirm is a no-op, arming then confirming wipes everything, and a
second confirm changes nothing. -/
theorem deleteStores_confirm_gating_witness :
    mkLevelNum.chatCommandsParts wGhost ["!deleteStoresConfirm"] = (mkLevelNum, wGhost) ∧
    ({ mkLevelNum with secondWarning := true }.chatCommandsParts wGhost
        ["!deleteStoresConfirm"]).2.props = [] := by
  constructor
  · exact (deleteStores_confirm_gating mkLevelNum wGhost).1 rfl
  · rw [((deleteStores_confirm_gating { mkLevelNum with secondWarning := true } wGhost).2.2
      rfl).1]

/-- C5 (amended): `get` never propagates adapter failures and distinguishes
absence from zero: an undefined adapter result broadcasts "not defined" and
yields no value; a thrown adapter read is caught and yields no value with
NO broadcast (the report in the catch branch is commented out in the
source); a defined value, the empty string included, is returned as-is
with no message. -/
theorem get_absence_semantics (mk : Mindkeeper) (w : WorldState) (store : String) :
    (w.getDyn store = .ok none →
        mk.get w store = (w.send ("Store " ++ store ++ " is not defined"), none)) ∧
    (w.getDyn store = .error () →
        mk.get w store = (w, none)) ∧
    (∀ v, w.getDyn store = .ok (some v) → mk.get w store = (w, some v)) := by
  refine ⟨?_, ?_, ?_⟩
  · intro h
    simp [Mindkeeper.get, h]
  · intro h
    simp [Mindkeeper.get, h]
  · intro v h
    simp [Mindkeeper.get, h]

/-- C5 counterexample: when the adapter read throws (key `"x"` of
`wThrow`), `get` yields no value but broadcasts NOTHING — the claimed
user-facing "not defined" report does not happen on the throw path. -/
theorem get_throw_counterexample :
    wThrow.getDyn "x" = .error () ∧
    mkLevelNum.get wThrow "x" = (wThrow, none) ∧
    (mkLevelNum.get wThrow "x").1.messages = wThrow.messages :=
  ⟨rfl, rfl, rfl⟩

/-- C5 witness: undefined yields a reported absence, a throw yields a
silent absence, a stored empty string is returned as-is. -/
theorem get_absence_semantics_witness :
    mkLevelNum.get wEmpty "level" = (wEmpty.send "Store level is not defined", none) ∧
    mkLevelNum.get wThrow "x" = (wThrow, none) ∧
    mkLevelNum.get wLevelEmptyStr "level" = (wLevelEmptyStr, some (Value.str "")) := by
  refine ⟨(get_absence_semantics mkLevelNum wEmpty "level").1 rfl,
          (get_absence_semantics mkLevelNum wThrow "x").2.1 rfl,
          (get_absence_semantics mkLevelNum wLevelEmptyStr "level").2.2
            (Value.str "") rfl⟩

theorem strAppend_assoc (a b c : String) : a ++ b ++ c = a ++ (b ++ c) := by
  cases a with | mk as =>
  cases b with | mk bs =>
  cases c with | mk cs =>
  show String.mk (as ++ bs ++ cs) = String.mk (as ++ (bs ++ cs))
  rw [List.append_assoc]

/-- C6 counterexample: the claimed silent no-op is not silent — incrementing
the registered but still-undefined `"level"` store broadcasts the read's
"not defined" report; and a store whose current value IS the number 5 but
whose declared type is string is not incremented to 6 (the inner `set`
rejects the write), against the claim's unconditional "current value 5
yields 6". -/
theorem increment_counterexample :
    (mkLevelNum.increment wEmpty "level").messages ≠ wEmpty.messages ∧
    (mkLevelNum.increment wEmpty "level").messages = ["Store level is not defined"] ∧
    lookupProp ((mkStrS.increment wS5 "s").flush).props "s" = some (Value.num 5) ∧
    (mkStrS.increment wS5 "s").pending = [] := by
  refine ⟨?_, rfl, rfl, rfl⟩
  decide

/-- C6 (amended): `increment` reads the current value; if it is the number
`n` and the declared type of the store is number, it queues a write of
`n + 1` (5 yields 6 after the deferred write flushes); if the value is
numeric but the declared type is not number, the inner `set` broadcasts a
type mismatch and no write happens; if the current value is not a number,
the persisted value and the write queue are unchanged — with no message of
`increment`'s own, though the underlying `get` broadcasts "not defined"
when the adapter returns undefined. -/
theorem increment_amended (mk : Mindkeeper) (w : WorldState) (store : String) :
    (∀ n, lookupProp w.props store = some (Value.num n) →
        mk.firstStoreType store = some StoreType.number →
        mk.increment w store = w.queueWrite store (Value.num (n + 1)) ∧
        lookupProp ((mk.increment w store).flush).props store = some (Value.num (n + 1))) ∧
    (∀ n, lookupProp w.props store = some (Value.num n) →
        (∀ T, mk.firstStoreType store = some T → T ≠ StoreType.number) →
        mk.increment w store =
          w.send ("Store " ++ store ++ " is not of type number")) ∧
    ((∀ n, lookupProp w.props store ≠ some (Value.num n)) →
        (mk.increment w store).pending = w.pending ∧
        (mk.increment w store).props = w.props) ∧
    (lookupProp w.props store = none → store ∉ w.throwOnMissing →
        mk.increment w store = w.send ("Store " ++ store ++ " is not defined")) := by
  refine ⟨?_, ?_, ?_, ?_⟩
  · intro n hlook htype
    have hget : mk.get w store = (w, some (Value.num n)) := by
      simp [Mindkeeper.get, WorldState.getDyn, hlook]
    have hset : mk.increment w store = mk.set w store (Value.num (n + 1)) := by
      simp [Mindkeeper.increment, hget]
    have hqueue : mk.increment w store = w.queueWrite store (Value.num (n + 1)) := by
      rw [hset]
      simp [Mindkeeper.set, htype, Value.typeofStr, StoreType.typeName]
    refine ⟨hqueue, ?_⟩
    rw [hqueue]
    simp only [WorldState.queueWrite, WorldState.flush]
    exact applyWrites_last w.pending w.props store (Value.num (n + 1))
  · intro n hlook hmis
    have hget : mk.get w store = (w, some (Value.num n)) := by
      simp [Mindkeeper.get, WorldState.getDyn, hlook]
    have hset : mk.increment w store = mk.set w store (Value.num (n + 1)) := by
      simp [Mindkeeper.increment, hget]
    rw [hset]
    have hcond : (mk.firstStoreType store).map StoreType.typeName ≠
        some (Value.num (n + 1)).typeofStr := by
      cases hft : mk.firstStoreType store with
      | none => simp
      | some T =>
          have hTn := hmis T hft
          cases T
          · simp [StoreType.typeName, Value.typeofStr]
          · exact absurd rfl hTn
          · simp [StoreType.typeName, Value.typeofStr]
    unfold Mindkeeper.set
    rw [if_pos hcond, strAppend_assoc]
    congr 1
  · intro hnotnum
    rcases hlook : lookupProp w.props store with _ | v
    · by_cases hc : store ∈ w.throwOnMissing
      · have hget : mk.get w store = (w, none) := by
          simp [Mindkeeper.get, WorldState.getDyn, hlook, hc]
        simp [Mindkeeper.increment, hget]
      · have hget : mk.get w store =
            (w.send ("Store " ++ store ++ " is not defined"), none) := by
          simp [Mindkeeper.get, WorldState.getDyn, hlook, hc]
        simp [Mindkeeper.increment, hget, WorldState.send]
    · have hget : mk.get w store = (w, some v) := by
        simp [Mindkeeper.get, WorldState.getDyn, hlook]
      cases v with
      | num n => exact absurd hlook (hnotnum n)
      | str s => simp [Mindkeeper.increment, hget]
      | bool b => simp [Mindkeeper.increment, hget]
      | vec x y z => simp [Mindkeeper.increment, hget]
  · intro hlook hc
    have hget : mk.get w store =
        (w.send ("Store " ++ store ++ " is not defined"), none) := by
      simp [Mindkeeper.get, WorldState.getDyn, hlook, hc]
    simp [Mindkeeper.increment, hget]

/-- C6 witness: incrementing `"level"` holding 5 queues a write of 6 that
is visible after the flush; a store holding a non-numeric value keeps its
persisted value and write queue unchanged. -/
theorem increment_amended_witness :
    mkLevelNum.increment wLevel5 "level" = wLevel5.queueWrite "level" (Value.num 6) ∧
    lookupProp ((mkLevelNum.increment wLevel5 "level").flush).props "level" =
      some (Value.num 6) ∧
    (mkLevelNum.increment wLevelEmptyStr "level").pending = wLevelEmptyStr.pending ∧
    (mkLevelNum.increment wLevelEmptyStr "level").props = wLevelEmptyStr.props := by
  have h1 := (increment_amended mkLevelNum wLevel5 "level").1 5 rfl (by decide)
  have h3 := (increment_amended mkLevelNum wLevelEmptyStr "level").2.2.1 ?_
  · exact ⟨h1.1, h1.2, h3.1, h3.2⟩
  · intro n h
    have he : lookupProp wLevelEmptyStr.props "level" = some (Value.str "") := rfl
    rw [he] at h
    simp at h

/-- C8: a type-correct `set` does not touch the persisted map
synchronously: it only queues the write, a `get` of the same name issued
before the flush still sees the previous persisted value, and only the
flush of the deferred queue makes the new value visible. -/
theorem set_deferred_write (mk : Mindkeeper) (w : WorldState) (store : String) (v : Value)
    (hmatch : (mk.firstStoreType store).map StoreType.typeName = some v.typeofStr) :
    mk.set w store v = w.queueWrite store v ∧
    (mk.set w store v).props = w.props ∧
    (mk.get (mk.set w store v) store).2 = (mk.get w store).2 ∧
    lookupProp ((mk.set w store v).flush).props store = some v := by
  have hqueue : mk.set w store v = w.queueWrite store v := by
    unfold Mindkeeper.set
    rw [if_neg (by simp [hmatch])]
  refine ⟨hqueue, by rw [hqueue]; rfl, ?_, ?_⟩
  · rw [hqueue]
    have hdyn : (w.queueWrite store v).getDyn store = w.getDyn store := rfl
    unfold Mindkeeper.get
    rw [hdyn]
    cases w.getDyn store with
    | ok o => cases o <;> rfl
    | error e => rfl
  · rw [hqueue]
    simp only [WorldState.queueWrite, WorldState.flush]
    exact applyWrites_last w.pending w.props store v

/-- C8 witness: with `"level"` persisting 5, setting 6 leaves the read at 5
within the same callback; after the flush the read sees 6. -/
theorem set_deferred_write_witness :
    (mkLevelNum.get wLevel5 "level").2 = some (Value.num 5) ∧
    (mkLevelNum.get (mkLevelNum.set wLevel5 "level" (Value.num 6)) "level").2 =
      some (Value.num 5) ∧
    lookupProp ((mkLevelNum.set wLevel5 "level" (Value.num 6)).flush).props "level" =
      some (Value.num 6) := by
  have h := set_deferred_write mkLevelNum wLevel5 "level" (Value.num 6) (by decide)
  exact ⟨by decide, by rw [h.2.2.1]; decide, h.2.2.2⟩

theorem chatSet_dispatch (mk : Mindkeeper) (w : WorldState) (rest : List String) :
    mk.chatCommandsParts w ("!set" :: rest) = (mk, handleSet mk w ("!set" :: rest)) := by
  simp +decide [Mindkeeper.chatCommandsParts, strStartsWith]

/-- C7: for a `!set` on a registered store, the coercion of the literal
argument is governed solely by the registered declared type — a fourth
type-hint token is accepted but changes nothing — with string kept as-is,
number parsed (an unparsable literal is reported and nothing is written),
and boolean compared case-insensitively to `"true"`. -/
theorem chat_set_coercion (mk : Mindkeeper) (w : WorldState) (name val hint : String) :
    mk.chatCommandsParts w ["!set", name, val, hint] =
        mk.chatCommandsParts w ["!set", name, val] ∧
    (mk.firstStoreType name = some StoreType.string →
        mk.chatCommandsParts w ["!set", name, val] =
          (mk, (w.queueWrite name (Value.str val)).send
            ("Value of " ++ name ++ " is " ++ val))) ∧
    (mk.firstStoreType name = some StoreType.number →
        (jsNumber val = none →
            mk.chatCommandsParts w ["!set", name, val] =
              (mk, w.send ("Can" ++ apos ++ "t parse " ++ val ++ " as a number"))) ∧
        (∀ k, jsNumber val = some k →
            mk.chatCommandsParts w ["!set", name, val] =
              (mk, (w.queueWrite name (Value.num k)).send
                ("Value of " ++ name ++ " is " ++ val)))) ∧
    (mk.firstStoreType name = some StoreType.boolean →
        mk.chatCommandsParts w ["!set", name, val] =
          (mk, (w.queueWrite name (Value.bool (jsToLower val == "true"))).send
            ("Value of " ++ name ++ " is " ++ val))) := by
  refine ⟨?_, ?_, ?_, ?_⟩
  · rw [chatSet_dispatch, chatSet_dispatch]
    rfl
  · intro h
    rw [chatSet_dispatch]
    simp [handleSet, h, Mindkeeper.set, StoreType.typeName, Value.typeofStr]
  · intro h
    constructor
    · intro hjs
      rw [chatSet_dispatch]
      simp [handleSet, h, hjs]
    · intro k hjs
      rw [chatSet_dispatch]
      simp [handleSet, h, hjs, Mindkeeper.set, StoreType.typeName, Value.typeofStr]
  · intro h
    rw [chatSet_dispatch]
    simp [handleSet, h, Mindkeeper.set, StoreType.typeName, Value.typeofStr]

/-- C7 witness: on the number store `"level"`, a hint token changes
nothing, `"5"` is written as the number 5, `"abc"` is reported as
unparsable, and `"TRUE"` on a boolean store coerces to true. -/
theorem chat_set_coercion_witness :
    mkLevelNum.chatCommandsParts wEmpty ["!set", "level", "5", "boolean"] =
      mkLevelNum.chatCommandsParts wEmpty ["!set", "level", "5"] ∧
    mkLevelNum.chatCommandsParts wEmpty ["!set", "level", "5"] =
      (mkLevelNum, (wEmpty.queueWrite "level" (Value.num 5)).send "Value of level is 5") ∧
    mkLevelNum.chatCommandsParts wEmpty ["!set", "level", "abc"] =
      (mkLevelNum, wEmpty.send ("Can" ++ apos ++ "t parse abc as a number")) := by
  refine ⟨(chat_set_coercion mkLevelNum wEmpty "level" "5" "boolean").1, ?_, ?_⟩
  · have h := ((chat_set_coercion mkLevelNum wEmpty "level" "5" "x").2.2.1
      (by decide)).2 5 (by decide)
    rw [h]
    rfl
  · have h := ((chat_set_coercion mkLevelNum wEmpty "level" "abc" "x").2.2.1
      (by decide)).1 (by decide)
    rw [h]
    rfl

/-- C9 counterexample: `"ghost"` is not registered, yet `get` returns the
string the untyped adapter holds under that name, with no message — not
the claimed absence. -/
theorem unregistered_get_counterexample :
    findStore mkLevelNum.registerdStores "ghost" = none ∧
    mkLevelNum.get wGhost "ghost" = (wGhost, some (Value.str "hello")) := by
  exact ⟨by decide, rfl⟩

/-- C9 (amended): `set` on an unregistered name broadcasts the mismatch
message and performs no write; `get`, however, never consults the
registry: for an unregistered name it returns whatever the adapter holds —
the stored value when defined, a reported absence when the adapter returns
undefined, and a silent absence when the read throws. -/
theorem unregistered_name_handling (mk : Mindkeeper) (w : WorldState) (name : String)
    (hunreg : mk.firstStoreType name = none) :
    (∀ v : Value, mk.set w name v =
        w.send ("Store " ++ name ++ " is not of type " ++ v.typeofStr) ∧
      (mk.set w name v).pending = w.pending ∧ (mk.set w name v).props = w.props) ∧
    (∀ u, lookupProp w.props name = some u → mk.get w name = (w, some u)) ∧
    (lookupProp w.props name = none → name ∉ w.throwOnMissing →
        mk.get w name = (w.send ("Store " ++ name ++ " is not defined"), none)) ∧
    (lookupProp w.props name = none → name ∈ w.throwOnMissing →
        mk.get w name = (w, none)) := by
  refine ⟨?_, ?_, ?_, ?_⟩
  · intro v
    unfold Mindkeeper.set
    rw [if_pos (by rw [hunreg]; simp)]
    exact ⟨rfl, rfl, rfl⟩
  · intro u hu
    simp [Mindkeeper.get, WorldState.getDyn, hu]
  · intro hlook hthrow
    simp [Mindkeeper.get, WorldState.getDyn, hlook, hthrow]
  · intro hlook hthrow
    simp [Mindkeeper.get, WorldState.getDyn, hlook, hthrow]

/-- C9 witness: with `"ghost"` unregistered but persisted, `set` rejects
with a message and `get` returns the stored string. -/
theorem unregistered_name_handling_witness :
    mkLevelNum.set wGhost "ghost" (Value.num 3) =
      wGhost.send "Store ghost is not of type number" ∧
    mkLevelNum.get wGhost "ghost" = (wGhost, some (Value.str "hello")) := by
  refine ⟨?_, ?_⟩
  · exact ((unregistered_name_handling mkLevelNum wGhost "ghost" (by decide)).1
      (Value.num 3)).1
  · exact (unregistered_name_handling mkLevelNum wGhost "ghost" (by decide)).2.1
      (Value.str "hello") rfl

theorem findStore_append_none (l1 l2 : List Store) (name : String)
    (h : findStore l1 name = none) : findStore (l1 ++ l2) name = findStore l2 name := by
  induction l1 with
  | nil => simp
  | cons s rest ih =>
      by_cases hn : s.name = name
      · rw [findStore, if_pos hn] at h
        exact absurd h (by simp)
      · rw [findStore, if_neg hn] at h
        rw [List.cons_append, findStore, if_neg hn]
        exact ih h

theorem set_congr (mk mk2 : Mindkeeper) (w : WorldState) (store : String) (v : Value)
    (h : mk.firstStoreType store = mk2.firstStoreType store) :
    mk.set w store v = mk2.set w store v := by
  unfold Mindkeeper.set
  rw [h]

theorem handleSet_congr (mk mk2 : Mindkeeper) (w : WorldState) (name val : String)
    (h : mk.firstStoreType name = mk2.firstStoreType name) :
    handleSet mk w ["!set", name, val] = handleSet mk2 w ["!set", name, val] := by
  have hset : ∀ v, mk.set w name v = mk2.set w name v :=
    fun v => set_congr mk mk2 w name v h
  unfold handleSet
  simp only [List.get?]
  rw [h]
  cases mk2.firstStoreType name with
  | none => rfl
  | some T =>
      cases T
      · simp [hset]
      · cases jsNumber val
        · rfl
        · simp [hset]
      · simp [hset]

/-- C10: `registerStore` appends unconditionally, so registering the same
name twice leaves both descriptors in `getStores()` in registration order;
every name lookup resolves to the first-registered descriptor, so both
`set`'s type check and the `!set` coercion behave exactly as they do with
only the first registration present — the duplicate's type never governs
any operation. -/
theorem duplicate_registration (mk : Mindkeeper) (w : WorldState) (name : String)
    (t1 t2 : StoreType) (v : Value) (val : String)
    (hfresh : findStore mk.registerdStores name = none) :
    ((mk.registerStore name t1).registerStore name t2).getStores =
        mk.registerdStores ++ [Store.mk t1 name, Store.mk t2 name] ∧
    ((mk.registerStore name t1).registerStore name t2).firstStoreType name = some t1 ∧
    ((mk.registerStore name t1).registerStore name t2).set w name v =
        (mk.registerStore name t1).set w name v ∧
    (((mk.registerStore name t1).registerStore name t2).chatCommandsParts w
        ["!set", name, val]).2 =
      ((mk.registerStore name t1).chatCommandsParts w ["!set", name, val]).2 := by
  have harr : ((mk.registerStore name t1).registerStore name t2).registerdStores =
      mk.registerdStores ++ [Store.mk t1 name, Store.mk t2 name] := by
    simp [Mindkeeper.registerStore]
  have hft2 : ((mk.registerStore name t1).registerStore name t2).firstStoreType name =
      some t1 := by
    unfold Mindkeeper.firstStoreType
    rw [harr, findStore_append_none _ _ _ hfresh]
    simp [findStore]
  have hft1 : (mk.registerStore name t1).firstStoreType name = some t1 := by
    unfold Mindkeeper.firstStoreType
    rw [show (mk.registerStore name t1).registerdStores =
        mk.registerdStores ++ [Store.mk t1 name] from rfl]
    rw [findStore_append_none _ _ _ hfresh]
    simp [findStore]
  refine ⟨by rw [Mindkeeper.getStores, harr], hft2, ?_, ?_⟩
  · exact set_congr _ _ w name v (hft2.trans hft1.symm)
  · rw [chatSet_dispatch, chatSet_dispatch]
    exact handleSet_congr _ _ w name val (hft2.trans hft1.symm)

/-- C10 witness: registering `"dup"` first as number then as string keeps
both descriptors, resolves lookups to the number descriptor, and `set`
behaves as with the single number registration. -/
theorem duplicate_registration_witness :
    ((mkEmpty.registerStore "dup" StoreType.number).registerStore "dup"
        StoreType.string).getStores =
      [Store.mk StoreType.number "dup", Store.mk StoreType.string "dup"] ∧
    ((mkEmpty.registerStore "dup" StoreType.number).registerStore "dup"
        StoreType.string).firstStoreType "dup" = some StoreType.number ∧
    ((mkEmpty.registerStore "dup" StoreType.number).registerStore "dup"
        StoreType.string).set wEmpty "dup" (Value.num 1) =
      (mkEmpty.registerStore "dup" StoreType.number).set wEmpty "dup" (Value.num 1) := by
  have h := duplicate_registration mkEmpty wEmpty "dup" StoreType.number StoreType.string
    (Value.num 1) "1" (by decide)
  exact ⟨h.1, h.2.1, h.2.2.1⟩

/-- C4: the level-3 `checkCompletion` realises the three-way signal: (a)
every condition holds and the agent is not on the out-of-bounds tile →
result true with no side effect; (b) the agent is out of bounds (water
below) → teleport back to the start, warning title, result false; (c)
conditions not all satisfied, not out of bounds, and the agent stands on
the designated end tile → teleport back to start, "incorrect" title, a
redstone block placed at the reset command block, and no explicit result. -/
theorem level3_checkCompletion_three_way (conditions : List Condition)
    (blockAt : Vec3 → Option String) (agentLocation : Vec3) (isAgentAt : Vec3 → Bool) :
    (level3IsComplete conditions blockAt = true →
        level3IsOutOfBounds blockAt agentLocation = false →
        level3CheckCompletion conditions blockAt agentLocation isAgentAt =
          { result := some true, teleportedTo := none, title := none, subtitle := none,
            filledBlock := none }) ∧
    (level3IsOutOfBounds blockAt agentLocation = true →
        level3CheckCompletion conditions blockAt agentLocation isAgentAt =
          { result := some false, teleportedTo := some level3StartPosition,
            title := some "%message.level.outofbounds",
            subtitle := some "%message.level.outofbounds.subtext", filledBlock := none }) ∧
    (level3IsComplete conditions blockAt = false →
        level3IsOutOfBounds blockAt agentLocation = false →
        isAgentAt Level3EndPosition = true →
        level3CheckCompletion conditions blockAt agentLocation isAgentAt =
          { result := none, teleportedTo := some level3StartPosition,
            title := some "%message.level.incorrect",
            subtitle := some "%message.level.incorrect.subtext",
            filledBlock := some (level3ResetCommandBlockPos, redstoneBlockId) }) := by
  refine ⟨?_, ?_, ?_⟩
  · intro hc hoob
    simp [level3CheckCompletion, hc, hoob]
  · intro hoob
    simp [level3CheckCompletion, hoob]
  · intro hc hoob hat
    simp [level3CheckCompletion, hc, hoob, hat]

/-- Two block conditions for the level, as the spec's testable property
asks. -/
def condsW : List Condition :=
  [Condition.mk (vector3 1 0 0) "minecraft:stone",
   Condition.mk (vector3 2 0 0) "minecraft:dirt"]

/-- A world where both condition blocks are in place and nothing is water. -/
def blockAtDone : Vec3 → Option String := fun p =>
  if p = vector3 1 0 0 then some "minecraft:stone"
  else if p = vector3 2 0 0 then some "minecraft:dirt"
  else some "minecraft:grass_block"

/-- A world where the block right below the agent position (5, 70, 5) is
water. -/
def blockAtWater : Vec3 → Option String := fun p =>
  if p = vector3 5 69 5 then some waterBlockId else blockAtDone p

/-- A world of grass only: no condition holds, nothing is water. -/
def blockAtGrass : Vec3 → Option String := fun _ => some "minecraft:grass_block"

/-- C4 witness: the three scenarios at concrete worlds — satisfied
conditions give true; water below gives the out-of-bounds recovery; wrong
arrangement on the end tile gives the retry recovery. -/
theorem level3_checkCompletion_three_way_witness :
    level3CheckCompletion condsW blockAtDone (vector3 5 70 5) (fun _ => false) =
      { result := some true, teleportedTo := none, title := none, subtitle := none,
        filledBlock := none } ∧
    level3CheckCompletion condsW blockAtWater (vector3 5 70 5) (fun _ => false) =
      { result := some false, teleportedTo := some level3StartPosition,
        title := some "%message.level.outofbounds",
        subtitle := some "%message.level.outofbounds.subtext", filledBlock := none } ∧
    level3CheckCompletion condsW blockAtGrass (vector3 5 70 5) (fun _ => true) =
      { result := none, teleportedTo := some level3StartPosition,
        title := some "%message.level.incorrect",
        subtitle := some "%message.level.incorrect.subtext",
        filledBlock := some (level3ResetCommandBlockPos, redstoneBlockId) } := by
  refine ⟨(level3_checkCompletion_three_way condsW blockAtDone (vector3 5 70 5)
            (fun _ => false)).1 (by decide) (by decide),
          (level3_checkCompletion_three_way condsW blockAtWater (vector3 5 70 5)
            (fun _ => false)).2.1 (by decide),
          (level3_checkCompletion_three_way condsW blockAtGrass (vector3 5 70 5)
            (fun _ => true)).2.2 (by decide) (by decide) rfl⟩
